import Mathlib

set_option autoImplicit false

/-!
Verification of the layered virtual filesystem (VFS) and volume/driver
registry of the simple-init repository.

The tree contains the registry globals and the driver-initiator table
(`internal.c` of `src/filesystem`) and the kernel-cmdline DPI handlers;
the remaining VFS operations (mount, unmount, resolve, the overlay and
read-only backends, the dispatcher) are modelled from the specification,
as marked on each definition.
-/

namespace SimpleInit

/-- The unified error taxonomy surfaced to callers (spec section 7). -/
inductive FsError where
  | NotFound
  | AlreadyExists
  | NameInUse
  | Busy
  | Unsupported
  | ReadOnly
  | InvalidArgument
  | InvalidHandle
  | DriverNotFound
  | NoSuchVolume
  | IoFailure
  | OutOfMemory
  | UndefinedVariable
  deriving DecidableEq, Repr

/-! Section: the driver-initiator table (`internal.c`). -/

/-- The four driver initiators named in `internal.c`:
`fsdrv_register_assets`, `fsdrv_register_socket`, `fsdrv_register_posix`,
`fsdrv_register_zip`. -/
inductive FsDrvInitiator where
  | assets
  | socket
  | posix
  | zip
  deriving DecidableEq, Repr

/-- The initiator table `fs_initiator` from `internal.c`, as a function of the
two build flags: `enable_uefi` embeds `ENABLE_UEFI` (the `#ifndef ENABLE_UEFI`
block holds `fsdrv_register_socket` then `fsdrv_register_posix`) and
`enable_libzip` embeds `ENABLE_LIBZIP` (the `#ifdef ENABLE_LIBZIP` block holds
`fsdrv_register_zip`). The terminating `NULL` entry becomes the end of the
list. -/
def fs_initiator (enable_uefi enable_libzip : Bool) : List FsDrvInitiator :=
  [FsDrvInitiator.assets]
    ++ (if enable_uefi then [] else [FsDrvInitiator.socket, FsDrvInitiator.posix])
    ++ (if enable_libzip then [FsDrvInitiator.zip] else [])

/-! Section: kernel-cmdline DPI handlers (`cmdline.c`). -/

/-- The confd key/value store, modelled as an association list from key to
integer value (only the integer keys touched by the DPI handlers matter
here). -/
def Confd : Type := List (String × Int)

/-- Function `confd_set_integer(key, value)`: store `value` under `key`. -/
def confd_set_integer (st : Confd) (k : String) (v : Int) : Confd :=
  (k, v) :: st

/-- Lookup of an integer key in the modelled confd store. -/
def confd_get_integer (st : Confd) (k : String) : Option Int :=
  (List.find? (fun e => e.1 == k) st).map (fun e => e.2)

/-- Handler `cmdline_dpi` from the source. `parse_int(v,0)` is not part of this tree,
so the handler is modelled over the integer `r` that the parse returned. The
out-of-range branch calls `trlog_warn(0, ...)`, which logs and returns its
first argument `0` without touching confd; the in-range branch stores `r`
under `runtime.cmdline.dpi` and returns `0`. The result is the pair
(return code, confd store after the call). -/
def cmdline_dpi (r : Int) (st : Confd) : Int × Confd :=
  if r < 0 ∨ r > 1000 then (0, st)
  else (0, confd_set_integer st "runtime.cmdline.dpi" r)

/-- Handler `cmdline_dpi_force` from the source: identical to `cmdline_dpi` except the
key is `runtime.cmdline.dpi_force`. -/
def cmdline_dpi_force (r : Int) (st : Confd) : Int × Confd :=
  if r < 0 ∨ r > 1000 then (0, st)
  else (0, confd_set_integer st "runtime.cmdline.dpi_force" r)

/-! Section: the registries and the mount/unmount state machine.

The registry-manipulating code (`drivers.c`, `volume.c`, `oper.c`, `file.c`,
`locked.c`) is not part of this tree; only its declarations in `internal.c`
are. The operations below are therefore modelled from the specification. -/

/-- Modelled from the spec: an `fs_driver` registry entry (`drivers.c` is not
in the tree). A driver has an identity and a mount capability that receives a
root descriptor and options and may fail with a driver-specific error. -/
structure FsDriver where
  name : String
  mountFn : String → List String → Except FsError Unit

/-- A mounted volume: mount name, owning driver name, backing root
(spec section 3, `Volume`). -/
structure Volume where
  name : String
  driver : String
  root : String
  deriving DecidableEq, Repr

/-- An open file handle: identity, back-reference to its volume, and a
liveness flag cleared when the volume is force-unmounted
(spec section 3, `FileHandle`). -/
structure FileHandle where
  id : Nat
  vol : String
  valid : Bool
  deriving DecidableEq, Repr

/-- A discovered-but-not-necessarily-mounted storage unit
(spec section 3, `VolumeInfo`). -/
structure VolumeInfo where
  device : String
  fstype : String
  deriving DecidableEq, Repr

/-- The three registries of `internal.c` (`fs_drivers`, `fs_volumes`,
`fs_volume_infos`) together with the outstanding file handles. -/
structure FsState where
  drivers : List FsDriver
  volumes : List Volume
  volume_infos : List VolumeInfo
  handles : List FileHandle

/-- Global `fs_drivers` from `internal.c`: `list*fs_drivers=NULL;` — the driver
registry starts as the empty (NULL) list. -/
def fs_drivers : List FsDriver := []

/-- Global `fs_volumes` from `internal.c`: `list*fs_volumes;` — a file-scope C object
with no initializer is zero-initialized, so the volume registry also starts
as the empty (NULL) list. -/
def fs_volumes : List Volume := []

/-- Global `fs_volume_infos` from `internal.c`: `list*fs_volume_infos;` —
zero-initialized file-scope object, the volume-info registry starts as the
empty (NULL) list. -/
def fs_volume_infos : List VolumeInfo := []

/-- Driver lookup by name against the driver registry. -/
def fsdrv_lookup (drivers : List FsDriver) (n : String) : Option FsDriver :=
  List.find? (fun d => d.name == n) drivers

/-- Volume lookup by mount name against the volume registry. -/
def fsvol_lookup (vols : List Volume) (n : String) : Option Volume :=
  List.find? (fun v => v.name == n) vols

/-- Volume-info lookup by device against the volume-info registry. -/
def fsvol_info_lookup (infos : List VolumeInfo) (dev : String) : Option VolumeInfo :=
  List.find? (fun i => i.device == dev) infos

/-- Modelled from the spec: `mount(name, driver_name, root, options)` — fails
with `NameInUse` if `name` is already mounted, with `DriverNotFound` if no
driver of that name is registered, propagates the driver's own mount error,
and otherwise stores the new volume in the volume registry keyed by `name`.
Returns the operation result together with the post-call state. -/
def mount (st : FsState) (name driver_name root : String) (options : List String) :
    Except FsError Unit × FsState :=
  if List.any st.volumes (fun v => v.name == name) then
    (Except.error FsError.NameInUse, st)
  else
    match fsdrv_lookup st.drivers driver_name with
    | none => (Except.error FsError.DriverNotFound, st)
    | some d =>
      match d.mountFn root options with
      | Except.error e => (Except.error e, st)
      | Except.ok _ =>
        (Except.ok (),
          ⟨st.drivers, ⟨name, driver_name, root⟩ :: st.volumes,
            st.volume_infos, st.handles⟩)

/-- The handles currently open (valid) on the volume named `n`. -/
def openHandles (st : FsState) (n : String) : List FileHandle :=
  List.filter (fun h => h.vol == n && h.valid) st.handles

/-- Invalidation of a handle when its volume `n` is force-unmounted: the
liveness flag is cleared; handles on other volumes are untouched. -/
def invalidateOn (n : String) (h : FileHandle) : FileHandle :=
  if h.vol == n then ⟨h.id, h.vol, false⟩ else h

/-- Modelled from the spec: `unmount(name, force)` — fails with `NoSuchVolume`
if `name` is not mounted; if open handles exist and `force` is false, fails
with `Busy` and leaves the state unchanged; otherwise invalidates every
outstanding handle on the volume and releases the volume from the registry. -/
def unmount (st : FsState) (name : String) (force : Bool) :
    Except FsError Unit × FsState :=
  match fsvol_lookup st.volumes name with
  | none => (Except.error FsError.NoSuchVolume, st)
  | some _ =>
    if !(List.isEmpty (openHandles st name)) && !force then
      (Except.error FsError.Busy, st)
    else
      (Except.ok (),
        ⟨st.drivers,
          List.filter (fun v => !(v.name == name)) st.volumes,
          st.volume_infos,
          List.map (invalidateOn name) st.handles⟩)

/-- Modelled from the spec: an operation issued on a previously obtained
handle (here `read`, the payload does not matter for handle liveness) first
validates the handle; a stale or invalidated handle fails with
`InvalidHandle`. -/
def read (st : FsState) (hid : Nat) : Except FsError Unit :=
  match List.find? (fun h => h.id == hid) st.handles with
  | none => Except.error FsError.InvalidHandle
  | some h => if h.valid then Except.ok () else Except.error FsError.InvalidHandle

/-! Section: the overlay backend. -/

/-- A flat key-value view of one layer's entries: path to file content. -/
abbrev Layer : Type := List (String × String)

/-- Entry lookup within a single plain layer. -/
def layer_lookup (l : Layer) (p : String) : Option String :=
  (List.find? (fun e => e.1 == p) l).map (fun e => e.2)

/-- Modelled from the spec: the upper (writable) layer of an overlay volume —
its file entries plus the whiteout markers recorded by deletions of
lower-only entries. -/
structure OverlayUpper where
  files : Layer
  whiteouts : List String
  deriving Repr

/-- Modelled from the spec: lookup in the upper layer as the overlay driver
sees it — `none` means the upper lookup reports `NotFound`; `some none` means
a whiteout marker is present; `some (some d)` means the upper layer holds the
entry `d`. -/
def upper_lookup (u : OverlayUpper) (p : String) : Option (Option String) :=
  if List.contains u.whiteouts p then some none
  else (layer_lookup u.files p).map some

/-- Modelled from the spec: the overlay read path — try upper; a whiteout
reports `NotFound` without consulting lower; only when the upper lookup
reports `NotFound` fall back to the lower layer. -/
def overlay_read (u : OverlayUpper) (lower : Layer) (p : String) :
    Except FsError String :=
  match upper_lookup u p with
  | some (some d) => Except.ok d
  | some none => Except.error FsError.NotFound
  | none =>
    match layer_lookup lower p with
    | some d => Except.ok d
    | none => Except.error FsError.NotFound

/-- Modelled from the spec: overlay delete — applies to upper only: the upper
entry (if any) is removed, and when the lower layer still holds the path a
whiteout marker is recorded in upper so subsequent lookups report `NotFound`.
Deleting a path the overlay does not contain fails with `NotFound`. The lower
layer is never modified. -/
def overlay_delete (u : OverlayUpper) (lower : Layer) (p : String) :
    Except FsError OverlayUpper :=
  match overlay_read u lower p with
  | Except.error e => Except.error e
  | Except.ok _ =>
    Except.ok
      ⟨List.filter (fun e => !(e.1 == p)) u.files,
        if (layer_lookup lower p).isSome then p :: u.whiteouts else u.whiteouts⟩

/-! Section: path resolution. -/

/-- A mounted volume as seen by `resolve`: the mount name as a sequence of
path segments, plus an identity. -/
structure RVol where
  name : List String
  vid : Nat
  deriving DecidableEq, Repr

/-- Of the matching volumes, pick the one with the longest name; the earlier
entry wins a tie, so the result is deterministic. -/
def pickLongest : List RVol → Option RVol
  | [] => none
  | v :: t =>
    match pickLongest t with
    | none => some v
    | some w => if v.name.length < w.name.length then some w else some v

/-- Modelled from the spec: `resolve(path)` — longest-prefix match of the
path's segments against mounted volume names; unmatched paths fall back to
the configured default volume when one is set and otherwise fail with
`NoSuchVolume`. -/
def resolve (vols : List RVol) (dflt : Option RVol) (p : List String) :
    Except FsError RVol :=
  match pickLongest (List.filter (fun v => List.isPrefixOf v.name p) vols) with
  | some v => Except.ok v
  | none =>
    match dflt with
    | some v => Except.ok v
    | none => Except.error FsError.NoSuchVolume

/-! Section: read-only backends and the write dispatcher. -/

/-- The backend kind of a mounted volume's driver (the four layer backends of
spec section 2.6 that own a real store). -/
inductive DriverKind where
  | assets
  | zip
  | posix
  | uefi
  deriving DecidableEq, Repr

/-- A mutating operation forwarded by the dispatcher. -/
inductive WriteOp where
  | write (p : String) (data : String)
  | delete (p : String)
  | mkdir (p : String)
  deriving DecidableEq, Repr

/-- Application of a mutation to a writable backend's store. -/
def store_apply : WriteOp → Layer → Layer
  | WriteOp.write p data, s => (p, data) :: List.filter (fun e => !(e.1 == p)) s
  | WriteOp.delete p, s => List.filter (fun e => !(e.1 == p)) s
  | WriteOp.mkdir p, s => (p, "") :: s

/-- Modelled from the spec: the per-driver mutation capability — the `assets`
and `zip` backends are read-only and every `write`/`delete`/`mkdir` fails with
`ReadOnly` before touching the store; `posix` and `uefi` apply the mutation. -/
def drv_apply_write : DriverKind → WriteOp → Layer → Except FsError Layer
  | DriverKind.assets, _, _ => Except.error FsError.ReadOnly
  | DriverKind.zip, _, _ => Except.error FsError.ReadOnly
  | DriverKind.posix, op, s => Except.ok (store_apply op s)
  | DriverKind.uefi, op, s => Except.ok (store_apply op s)

/-- A mounted volume as seen by the write dispatcher: name, backend kind and
backing store. -/
structure MVol where
  name : String
  kind : DriverKind
  store : Layer
  deriving DecidableEq, Repr

/-- Modelled from the spec: the dispatcher's shape for a mutating call —
resolve the owning volume, forward to the driver's capability, and commit the
new store only on success; on any error the volume list (and so every backing
store) is returned unchanged. -/
def dispatch_write (vols : List MVol) (vname : String) (op : WriteOp) :
    Except FsError Unit × List MVol :=
  match List.find? (fun v => v.name == vname) vols with
  | none => (Except.error FsError.NoSuchVolume, vols)
  | some v =>
    match drv_apply_write v.kind op v.store with
    | Except.error e => (Except.error e, vols)
    | Except.ok s2 =>
      (Except.ok (),
        List.map (fun w => if w.name == vname then ⟨w.name, w.kind, s2⟩ else w) vols)

/-- Concrete state with one mounted volume `V` and one open handle on it,
used to witness the unmount claims. -/
def busyState : FsState :=
  ⟨[], [⟨"V", "posix", "/"⟩], [], [⟨1, "V", true⟩]⟩

/-- A concrete driver whose mount capability always succeeds, used to witness
the mount/unmount claims. -/
def okDriver : FsDriver := ⟨"posix", fun _ _ => Except.ok ()⟩

/-- Concrete state with the always-succeeding driver registered and nothing
mounted. -/
def rtState : FsState := ⟨[okDriver], [], [], []⟩

/-! Section: theorems. -/

theorem invalidateOn_id (n : String) (h : FileHandle) :
    (invalidateOn n h).id = h.id := by
  unfold invalidateOn
  split <;> rfl

theorem find_handle_by_id {l : List FileHandle} {h : FileHandle}
    (hmem : h ∈ l) (hnd : (List.map FileHandle.id l).Nodup) :
    List.find? (fun x => x.id == h.id) l = some h := by
  induction l with
  | nil => cases hmem
  | cons a t ih =>
    rw [List.map_cons] at hnd
    obtain ⟨hanot, hndt⟩ := List.nodup_cons.mp hnd
    rcases List.mem_cons.mp hmem with rfl | hmt
    · exact List.find?_cons_of_pos _ (by simp)
    · have hidne : a.id ≠ h.id := by
        intro he
        have h2 : h.id ∈ List.map FileHandle.id t := List.mem_map.mpr ⟨h, hmt, rfl⟩
        rw [← he] at h2
        exact hanot h2
      rw [List.find?_cons_of_neg _ (by simp [hidne])]
      exact ih hmt hndt

/-- C1: the initiator table always starts with the assets initiator; when not
building for UEFI firmware the socket and posix initiators come next in the
table's order; the zip initiator is present exactly when `ENABLE_LIBZIP` is
set and is then the last entry; each initiator appears at most once (it is
invoked once by the startup loop) and no entry other than these four exists
before the terminating end of the table. -/
theorem fs_initiator_table_order :
    ∀ u z : Bool,
      ((fs_initiator u z).head? = some FsDrvInitiator.assets)
      ∧ (fs_initiator u z).Nodup
      ∧ (u = false → List.take 3 (fs_initiator u z) =
          [FsDrvInitiator.assets, FsDrvInitiator.socket, FsDrvInitiator.posix])
      ∧ (u = true → FsDrvInitiator.socket ∉ fs_initiator u z
          ∧ FsDrvInitiator.posix ∉ fs_initiator u z)
      ∧ (FsDrvInitiator.zip ∈ fs_initiator u z ↔ z = true)
      ∧ (z = true → (fs_initiator u z).getLast? = some FsDrvInitiator.zip)
      ∧ (∀ x ∈ fs_initiator u z,
          x = FsDrvInitiator.assets
          ∨ (u = false ∧ (x = FsDrvInitiator.socket ∨ x = FsDrvInitiator.posix))
          ∨ (z = true ∧ x = FsDrvInitiator.zip)) := by
  decide

/-- C9: the three registries declared in `internal.c` start empty (NULL), so
any driver lookup, volume lookup or resolution, or volume-info query issued
against the fresh registries finds no entry. -/
theorem initial_registries_empty :
    ∀ (n dev : String) (p : List String) (q : FsDriver → Bool),
      List.find? q fs_drivers = none
      ∧ fsdrv_lookup fs_drivers n = none
      ∧ fsvol_lookup fs_volumes n = none
      ∧ fsvol_info_lookup fs_volume_infos dev = none
      ∧ resolve (List.map (fun v => RVol.mk [v.name] 0) fs_volumes) none p =
          Except.error FsError.NoSuchVolume := by
  intro n dev p q
  exact ⟨rfl, rfl, rfl, rfl, rfl⟩

/-- C10: both kernel-cmdline DPI handlers return 0 on every input; they store
the parsed value under their confd key exactly when it lies in the inclusive
range 0..1000, and otherwise leave the configuration store unchanged. -/
theorem cmdline_dpi_range_check :
    ∀ (r : Int) (st : Confd),
      (cmdline_dpi r st).1 = 0
      ∧ (cmdline_dpi_force r st).1 = 0
      ∧ ((0 ≤ r ∧ r ≤ 1000) →
          (cmdline_dpi r st).2 = confd_set_integer st "runtime.cmdline.dpi" r
          ∧ (cmdline_dpi_force r st).2 =
              confd_set_integer st "runtime.cmdline.dpi_force" r
          ∧ confd_get_integer (cmdline_dpi r st).2 "runtime.cmdline.dpi" = some r
          ∧ confd_get_integer (cmdline_dpi_force r st).2 "runtime.cmdline.dpi_force" =
              some r)
      ∧ (¬(0 ≤ r ∧ r ≤ 1000) →
          (cmdline_dpi r st).2 = st ∧ (cmdline_dpi_force r st).2 = st) := by
  intro r st
  by_cases h : r < 0 ∨ r > 1000
  · refine ⟨by simp [cmdline_dpi, h], by simp [cmdline_dpi_force, h], ?_, ?_⟩
    · intro hin
      exact absurd h (by omega)
    · intro _
      exact ⟨by simp [cmdline_dpi, h], by simp [cmdline_dpi_force, h]⟩
  · refine ⟨by simp [cmdline_dpi, h], by simp [cmdline_dpi_force, h], ?_, ?_⟩
    · intro _
      refine ⟨by simp [cmdline_dpi, h], by simp [cmdline_dpi_force, h], ?_, ?_⟩
      · simp [cmdline_dpi, h, confd_get_integer, confd_set_integer]
      · simp [cmdline_dpi_force, h, confd_get_integer, confd_set_integer]
    · intro hout
      exact absurd (by omega : 0 ≤ r ∧ r ≤ 1000) hout

/-- C2: for a mounted volume `V` with at least one open handle,
`unmount(V, force=false)` fails with `Busy` and leaves the whole state (in
particular the mounted volume) unchanged; `unmount(V, force=true)` succeeds,
and a subsequent operation (`read`) on any handle that was open on `V` at that
moment fails with `InvalidHandle`. Handle identifiers are assumed distinct
(each `open` returns a fresh handle). -/
theorem unmount_busy_and_force_invalidates (st : FsState) (V : String)
    (v : Volume) (h : FileHandle)
    (hv : v ∈ st.volumes) (hvname : v.name = V)
    (hh : h ∈ st.handles) (hvol : h.vol = V) (hvalid : h.valid = true)
    (hids : (List.map FileHandle.id st.handles).Nodup) :
    (unmount st V false).1 = Except.error FsError.Busy
    ∧ (unmount st V false).2 = st
    ∧ (unmount st V true).1 = Except.ok ()
    ∧ ∀ g ∈ st.handles, g.vol = V → g.valid = true →
        read (unmount st V true).2 g.id = Except.error FsError.InvalidHandle := by
  have hfs : (fsvol_lookup st.volumes V).isSome := by
    unfold fsvol_lookup
    exact List.find?_isSome.mpr ⟨v, hv, by simp [hvname]⟩
  obtain ⟨w, hw⟩ := Option.isSome_iff_exists.mp hfs
  have hopen : openHandles st V ≠ [] := by
    apply List.ne_nil_of_mem (a := h)
    unfold openHandles
    exact List.mem_filter.mpr ⟨hh, by simp [hvol, hvalid]⟩
  have hoe : List.isEmpty (openHandles st V) = false :=
    Bool.eq_false_iff.mpr (fun e => hopen (List.isEmpty_iff.mp e))
  refine ⟨?_, ?_, ?_, ?_⟩
  · unfold unmount
    rw [hw]
    simp [hoe]
  · unfold unmount
    rw [hw]
    simp [hoe]
  · unfold unmount
    rw [hw]
    simp [hoe]
  · intro g hg hgvol hgvalid
    have hpost : (unmount st V true).2.handles =
        List.map (invalidateOn V) st.handles := by
      unfold unmount
      rw [hw]
      simp [hoe]
    unfold read
    rw [hpost]
    have hfm : List.find? (fun x => x.id == g.id) (List.map (invalidateOn V) st.handles)
        = Option.map (invalidateOn V)
            (List.find? ((fun x : FileHandle => x.id == g.id) ∘ invalidateOn V)
              st.handles) :=
      List.find?_map _ _
    have hcong : ((fun x : FileHandle => x.id == g.id) ∘ invalidateOn V)
        = fun x : FileHandle => x.id == g.id := by
      funext x
      simp [Function.comp, invalidateOn_id]
    rw [hfm, hcong, find_handle_by_id hg hids]
    have hinv : invalidateOn V g = ⟨g.id, g.vol, false⟩ := by
      unfold invalidateOn
      simp [hgvol]
    simp [hinv]

/-- Witness for C2 on the concrete state `busyState`: one volume `V`, one open
handle with id 1. -/
theorem unmount_busy_and_force_invalidates_witness :
    (unmount busyState "V" false).1 = Except.error FsError.Busy
    ∧ (unmount busyState "V" false).2 = busyState
    ∧ (unmount busyState "V" true).1 = Except.ok ()
    ∧ ∀ g ∈ busyState.handles, g.vol = "V" → g.valid = true →
        read (unmount busyState "V" true).2 g.id = Except.error FsError.InvalidHandle :=
  unmount_busy_and_force_invalidates busyState "V" ⟨"V", "posix", "/"⟩ ⟨1, "V", true⟩
    (by simp [busyState]) rfl (by simp [busyState]) rfl rfl (by simp [busyState])

/-- C6: `mount` fails with `NameInUse` when the name is already mounted, with
`DriverNotFound` when no driver of that name is registered, propagates the
driver's own mount error, and otherwise records the new volume keyed by name;
on every failure outcome the state (in particular the volume registry) is
unchanged. Conversely a `NameInUse` (resp. `DriverNotFound`) failure can only
arise from the corresponding condition or from the driver's own mount error
carrying that code. -/
theorem mount_error_cases (st : FsState) (name dn root : String) (opts : List String) :
    ((∃ v ∈ st.volumes, v.name = name) →
        (mount st name dn root opts).1 = Except.error FsError.NameInUse)
    ∧ ((¬∃ v ∈ st.volumes, v.name = name) → fsdrv_lookup st.drivers dn = none →
        (mount st name dn root opts).1 = Except.error FsError.DriverNotFound)
    ∧ (∀ d e, (¬∃ v ∈ st.volumes, v.name = name) →
        fsdrv_lookup st.drivers dn = some d → d.mountFn root opts = Except.error e →
        (mount st name dn root opts).1 = Except.error e)
    ∧ (∀ d, (¬∃ v ∈ st.volumes, v.name = name) →
        fsdrv_lookup st.drivers dn = some d → d.mountFn root opts = Except.ok () →
        (mount st name dn root opts).1 = Except.ok ()
        ∧ (mount st name dn root opts).2.volumes = ⟨name, dn, root⟩ :: st.volumes)
    ∧ ((mount st name dn root opts).1 ≠ Except.ok () →
        (mount st name dn root opts).2 = st)
    ∧ ((mount st name dn root opts).1 = Except.error FsError.NameInUse →
        (∃ v ∈ st.volumes, v.name = name)
        ∨ ∃ d, fsdrv_lookup st.drivers dn = some d
            ∧ d.mountFn root opts = Except.error FsError.NameInUse)
    ∧ ((mount st name dn root opts).1 = Except.error FsError.DriverNotFound →
        fsdrv_lookup st.drivers dn = none
        ∨ ∃ d, fsdrv_lookup st.drivers dn = some d
            ∧ d.mountFn root opts = Except.error FsError.DriverNotFound) := by
  have hbt : (∃ v ∈ st.volumes, v.name = name) →
      List.any st.volumes (fun v => v.name == name) = true := by
    rintro ⟨v, hv, hn⟩
    exact List.any_eq_true.mpr ⟨v, hv, by simp [hn]⟩
  have hbf : (¬∃ v ∈ st.volumes, v.name = name) →
      List.any st.volumes (fun v => v.name == name) = false := by
    intro hno
    rw [Bool.eq_false_iff]
    intro ht
    obtain ⟨x, hx, hp⟩ := List.any_eq_true.mp ht
    exact hno ⟨x, hx, by simpa using hp⟩
  refine ⟨?_, ?_, ?_, ?_, ?_, ?_, ?_⟩
  · intro hex
    unfold mount
    simp [hbt hex]
  · intro hno hdn
    unfold mount
    simp [hbf hno, hdn]
  · intro d e hno hd hm
    unfold mount
    simp [hbf hno, hd, hm]
  · intro d hno hd hm
    refine ⟨?_, ?_⟩ <;> (unfold mount; simp [hbf hno, hd, hm])
  · by_cases hb : ∃ v ∈ st.volumes, v.name = name
    · intro _
      unfold mount
      simp [hbt hb]
    · cases hdl : fsdrv_lookup st.drivers dn with
      | none =>
        intro _
        unfold mount
        simp [hbf hb, hdl]
      | some d =>
        cases hm : d.mountFn root opts with
        | error e =>
          intro _
          unfold mount
          simp [hbf hb, hdl, hm]
        | ok u =>
          intro hne
          exact absurd (by unfold mount; simp [hbf hb, hdl, hm]) hne
  · intro hres
    by_cases hb : ∃ v ∈ st.volumes, v.name = name
    · exact Or.inl hb
    · right
      cases hdl : fsdrv_lookup st.drivers dn with
      | none =>
        exfalso
        unfold mount at hres
        simp [hbf hb, hdl] at hres
      | some d =>
        cases hm : d.mountFn root opts with
        | error e =>
          unfold mount at hres
          simp [hbf hb, hdl, hm] at hres
          exact ⟨d, rfl, by rw [hm, hres]⟩
        | ok u =>
          exfalso
          unfold mount at hres
          simp [hbf hb, hdl, hm] at hres
  · intro hres
    by_cases hb : ∃ v ∈ st.volumes, v.name = name
    · exfalso
      unfold mount at hres
      simp [hbt hb] at hres
    · cases hdl : fsdrv_lookup st.drivers dn with
      | none => exact Or.inl rfl
      | some d =>
        cases hm : d.mountFn root opts with
        | error e =>
          right
          unfold mount at hres
          simp [hbf hb, hdl, hm] at hres
          exact ⟨d, rfl, by rw [hm, hres]⟩
        | ok u =>
          exfalso
          unfold mount at hres
          simp [hbf hb, hdl, hm] at hres

/-- Witness for C6: on a state with no volumes and no registered driver named
`nodrv`, mount fails with `DriverNotFound`. -/
theorem mount_error_cases_witness :
    (mount rtState "v1" "nodrv" "/" []).1 = Except.error FsError.DriverNotFound :=
  (mount_error_cases rtState "v1" "nodrv" "/" []).2.1 (by simp [rtState]) rfl

/-- C7: for a registered driver whose mount capability succeeds on the given
root, a name not currently mounted, and no outstanding handle on that name,
mounting and then immediately unmounting (without `force`) both succeed, and
afterwards the driver registry, the volume registry and the volume-info
registry are exactly in their pre-mount state. -/
theorem mount_unmount_roundtrip (st : FsState) (name dn root : String)
    (opts : List String) (d : FsDriver)
    (hd : fsdrv_lookup st.drivers dn = some d)
    (hok : d.mountFn root opts = Except.ok ())
    (hfree : ∀ v ∈ st.volumes, v.name ≠ name)
    (hnoh : ∀ h ∈ st.handles, h.vol ≠ name) :
    (mount st name dn root opts).1 = Except.ok ()
    ∧ (unmount (mount st name dn root opts).2 name false).1 = Except.ok ()
    ∧ (unmount (mount st name dn root opts).2 name false).2.drivers = st.drivers
    ∧ (unmount (mount st name dn root opts).2 name false).2.volumes = st.volumes
    ∧ (unmount (mount st name dn root opts).2 name false).2.volume_infos =
        st.volume_infos := by
  have hb : List.any st.volumes (fun v => v.name == name) = false := by
    rw [Bool.eq_false_iff]
    intro ht
    obtain ⟨x, hx, hp⟩ := List.any_eq_true.mp ht
    exact hfree x hx (by simpa using hp)
  have hres1 : (mount st name dn root opts).1 = Except.ok () := by
    unfold mount
    simp [hb, hd, hok]
  have hst1 : (mount st name dn root opts).2 =
      ⟨st.drivers, ⟨name, dn, root⟩ :: st.volumes, st.volume_infos, st.handles⟩ := by
    unfold mount
    simp [hb, hd, hok]
  have hlook : fsvol_lookup (Volume.mk name dn root :: st.volumes) name =
      some ⟨name, dn, root⟩ := by
    unfold fsvol_lookup
    exact List.find?_cons_of_pos _ (by simp)
  have hopenE : openHandles
      ⟨st.drivers, ⟨name, dn, root⟩ :: st.volumes, st.volume_infos, st.handles⟩
      name = [] := by
    unfold openHandles
    exact List.filter_eq_nil_iff.mpr (fun h hh => by simp [hnoh h hh])
  have hfilter : List.filter (fun v => !(v.name == name))
      (Volume.mk name dn root :: st.volumes) = st.volumes := by
    rw [List.filter_cons_of_neg (by simp)]
    exact List.filter_eq_self.mpr (fun v hv => by simp [hfree v hv])
  refine ⟨hres1, ?_, ?_, ?_, ?_⟩ <;>
    (rw [hst1]; unfold unmount; rw [hlook]; simp [hopenE, hfilter])

/-- Witness for C7 on the concrete state `rtState`. -/
theorem mount_unmount_roundtrip_witness :
    (mount rtState "v1" "posix" "/" []).1 = Except.ok ()
    ∧ (unmount (mount rtState "v1" "posix" "/" []).2 "v1" false).1 = Except.ok ()
    ∧ (unmount (mount rtState "v1" "posix" "/" []).2 "v1" false).2.drivers =
        rtState.drivers
    ∧ (unmount (mount rtState "v1" "posix" "/" []).2 "v1" false).2.volumes =
        rtState.volumes
    ∧ (unmount (mount rtState "v1" "posix" "/" []).2 "v1" false).2.volume_infos =
        rtState.volume_infos :=
  mount_unmount_roundtrip rtState "v1" "posix" "/" [] okDriver rfl rfl
    (by simp [rtState]) (by simp [rtState])

/-- C3: overlay precedence and whiteouts — (1) when the upper layer holds an
entry for `p` (and no whiteout), a read returns the upper entry; (2) when the
upper lookup reports `NotFound`, the read falls back to the lower layer's
entry; (3) whenever the upper lookup reports anything other than `NotFound`,
the result is independent of the lower layer (so the fallback happens exactly
on upper `NotFound`); (4) deleting a path that exists only in the lower layer
records a whiteout in upper, and a subsequent read through the overlay
returns `NotFound` although the untouched lower layer still holds the
entry. -/
theorem overlay_precedence_and_whiteout (u : OverlayUpper) (lower : Layer) (p : String) :
    (∀ d, List.contains u.whiteouts p = false → layer_lookup u.files p = some d →
        overlay_read u lower p = Except.ok d)
    ∧ (upper_lookup u p = none →
        overlay_read u lower p =
          (match layer_lookup lower p with
            | some d => Except.ok d
            | none => Except.error FsError.NotFound))
    ∧ (∀ x, upper_lookup u p = some x → ∀ lower2 : Layer,
        overlay_read u lower p = overlay_read u lower2 p)
    ∧ (∀ d, upper_lookup u p = none → layer_lookup lower p = some d →
        overlay_delete u lower p =
          Except.ok ⟨List.filter (fun e => !(e.1 == p)) u.files, p :: u.whiteouts⟩
        ∧ overlay_read ⟨List.filter (fun e => !(e.1 == p)) u.files, p :: u.whiteouts⟩
            lower p = Except.error FsError.NotFound) := by
  refine ⟨?_, ?_, ?_, ?_⟩
  · intro d hw hf
    have hw2 : p ∉ u.whiteouts := by simpa using hw
    unfold overlay_read upper_lookup
    simp [hw2, hf]
  · intro hnone
    unfold overlay_read
    rw [hnone]
  · intro x hx lower2
    unfold overlay_read
    rw [hx]
    cases x <;> rfl
  · intro d hnone hlow
    have hread : overlay_read u lower p = Except.ok d := by
      unfold overlay_read
      rw [hnone, hlow]
    constructor
    · unfold overlay_delete
      rw [hread, hlow]
      rfl
    · unfold overlay_read upper_lookup
      simp

/-- Witness for C3, the spec's concrete scenario: lower holds `/a=1`; with
upper holding `/a=2` the overlay reads `2`; deleting `/a` on an empty upper
records a whiteout and the subsequent read reports `NotFound` while lower
still holds `/a=1`. -/
theorem overlay_precedence_and_whiteout_witness :
    overlay_read ⟨[("/a", "2")], []⟩ [("/a", "1")] "/a" = Except.ok "2"
    ∧ overlay_delete ⟨[], []⟩ [("/a", "1")] "/a" = Except.ok ⟨[], ["/a"]⟩
    ∧ overlay_read ⟨[], ["/a"]⟩ [("/a", "1")] "/a" = Except.error FsError.NotFound :=
  ⟨(overlay_precedence_and_whiteout ⟨[("/a", "2")], []⟩ [("/a", "1")] "/a").1 "2" rfl rfl,
    ((overlay_precedence_and_whiteout ⟨[], []⟩ [("/a", "1")] "/a").2.2.2 "1" rfl rfl).1,
    ((overlay_precedence_and_whiteout ⟨[], []⟩ [("/a", "1")] "/a").2.2.2 "1" rfl rfl).2⟩

/-- C5: on a mounted volume whose driver is the assets or zip backend, every
write, delete or mkdir operation dispatched to it fails with `ReadOnly`, and
the volume list — hence every backing store — is returned completely
unchanged (no partial application). -/
theorem readonly_backend_rejects_writes (vols : List MVol) (v : MVol) (op : WriteOp)
    (hfind : List.find? (fun w => w.name == v.name) vols = some v)
    (hro : v.kind = DriverKind.assets ∨ v.kind = DriverKind.zip) :
    (dispatch_write vols v.name op).1 = Except.error FsError.ReadOnly
    ∧ (dispatch_write vols v.name op).2 = vols := by
  have happ : drv_apply_write v.kind op v.store = Except.error FsError.ReadOnly := by
    rcases hro with h | h <;> rw [h] <;> rfl
  constructor <;> (unfold dispatch_write; rw [hfind]; simp [happ])

/-- Witness for C5: a `write` against an assets-backed volume `res` fails with
`ReadOnly` and leaves the store untouched. -/
theorem readonly_backend_rejects_writes_witness :
    (dispatch_write [⟨"res", DriverKind.assets, [("splash.png", "x")]⟩] "res"
        (WriteOp.write "splash.png" "y")).1 = Except.error FsError.ReadOnly
    ∧ (dispatch_write [⟨"res", DriverKind.assets, [("splash.png", "x")]⟩] "res"
        (WriteOp.write "splash.png" "y")).2 =
      [⟨"res", DriverKind.assets, [("splash.png", "x")]⟩] :=
  readonly_backend_rejects_writes
    [⟨"res", DriverKind.assets, [("splash.png", "x")]⟩]
    ⟨"res", DriverKind.assets, [("splash.png", "x")]⟩
    (WriteOp.write "splash.png" "y") rfl (Or.inl rfl)

theorem pickLongest_const {l : List RVol} {V : RVol}
    (hall : ∀ x ∈ l, x = V) (hne : l ≠ []) : pickLongest l = some V := by
  induction l with
  | nil => exact absurd rfl hne
  | cons v t ih =>
    have hv : v = V := hall v (List.mem_cons_self v t)
    cases ht : pickLongest t with
    | none =>
      unfold pickLongest
      rw [ht, hv]
    | some w =>
      have htne : t ≠ [] := by
        intro he
        rw [he] at ht
        simp [pickLongest] at ht
      have hw : w = V := by
        have h2 := ih (fun x hx => hall x (List.mem_cons_of_mem v hx)) htne
        rw [ht] at h2
        exact Option.some.inj h2
      unfold pickLongest
      rw [ht, hv, hw]
      simp

theorem filter_matches_subsingleton {vols : List RVol} {p : List String}
    (hpw : vols.Pairwise (fun a b => ¬ a.name <+: b.name ∧ ¬ b.name <+: a.name)) :
    List.filter (fun v => List.isPrefixOf v.name p) vols = []
    ∨ ∃ a, List.filter (fun v => List.isPrefixOf v.name p) vols = [a] := by
  cases hfl : List.filter (fun v => List.isPrefixOf v.name p) vols with
  | nil => exact Or.inl rfl
  | cons a t =>
    cases t with
    | nil => exact Or.inr ⟨a, rfl⟩
    | cons b t2 =>
      exfalso
      have hflpw := hpw.filter (fun v => List.isPrefixOf v.name p)
      rw [hfl] at hflpw
      have hPab : ¬ a.name <+: b.name ∧ ¬ b.name <+: a.name :=
        (List.pairwise_cons.mp hflpw).1 b (List.mem_cons_self b t2)
      have hamem : a ∈ List.filter (fun v => List.isPrefixOf v.name p) vols := by
        rw [hfl]
        exact List.mem_cons_self a (b :: t2)
      have hbmem : b ∈ List.filter (fun v => List.isPrefixOf v.name p) vols := by
        rw [hfl]
        exact List.mem_cons_of_mem a (List.mem_cons_self b t2)
      have hap : a.name <+: p :=
        List.isPrefixOf_iff_prefix.mp (List.mem_filter.mp hamem).2
      have hbp : b.name <+: p :=
        List.isPrefixOf_iff_prefix.mp (List.mem_filter.mp hbmem).2
      rcases List.prefix_or_prefix_of_prefix hap hbp with h | h
      · exact hPab.1 h
      · exact hPab.2 h

/-- C4: `resolve` — (1) when a path lies under exactly one mounted volume `V`
(its name is a prefix of the path and every mounted prefix match is `V`),
resolution returns `V`; (2) for non-overlapping volume names the result does
not depend on the order in which volumes were mounted (any permutation of the
registry resolves identically); resolve is a function of its arguments, hence
deterministic; (3) a path matching no mounted volume resolves to the
configured default volume if one is set and otherwise fails with
`NoSuchVolume`. -/
theorem resolve_longest_match (vols : List RVol) (dflt : Option RVol)
    (p : List String) :
    (∀ V ∈ vols, V.name <+: p → (∀ w ∈ vols, w.name <+: p → w = V) →
        resolve vols dflt p = Except.ok V)
    ∧ (∀ vols2, vols.Perm vols2 →
        vols.Pairwise (fun a b => ¬ a.name <+: b.name ∧ ¬ b.name <+: a.name) →
        resolve vols dflt p = resolve vols2 dflt p)
    ∧ ((∀ v ∈ vols, ¬ v.name <+: p) →
        resolve vols dflt p =
          (match dflt with
            | some D => Except.ok D
            | none => Except.error FsError.NoSuchVolume)) := by
  refine ⟨?_, ?_, ?_⟩
  · intro V hV hpre huniq
    have hallV : ∀ x ∈ List.filter (fun v => List.isPrefixOf v.name p) vols, x = V := by
      intro x hx
      obtain ⟨hxm, hxq⟩ := List.mem_filter.mp hx
      exact huniq x hxm (List.isPrefixOf_iff_prefix.mp hxq)
    have hVm : V ∈ List.filter (fun v => List.isPrefixOf v.name p) vols :=
      List.mem_filter.mpr ⟨hV, List.isPrefixOf_iff_prefix.mpr hpre⟩
    have hne : List.filter (fun v => List.isPrefixOf v.name p) vols ≠ [] :=
      List.ne_nil_of_mem hVm
    unfold resolve
    rw [pickLongest_const hallV hne]
  · intro vols2 hperm hpw
    have hfp : (List.filter (fun v => List.isPrefixOf v.name p) vols).Perm
        (List.filter (fun v => List.isPrefixOf v.name p) vols2) :=
      hperm.filter _
    have heq : List.filter (fun v => List.isPrefixOf v.name p) vols =
        List.filter (fun v => List.isPrefixOf v.name p) vols2 := by
      rcases filter_matches_subsingleton hpw with he | ⟨a, he⟩
      · rw [he] at hfp ⊢
        exact (List.Perm.nil_eq hfp)
      · rw [he] at hfp ⊢
        exact (List.perm_singleton.mp hfp.symm).symm
    unfold resolve
    rw [heq]
  · intro hnone
    have hfe : List.filter (fun v => List.isPrefixOf v.name p) vols = [] :=
      List.filter_eq_nil_iff.mpr (fun v hv => by
        simp only [Bool.not_eq_true]
        rw [Bool.eq_false_iff]
        intro ht
        exact hnone v hv (List.isPrefixOf_iff_prefix.mp ht))
    unfold resolve
    rw [hfe]
    rfl

/-- Witness for C4: with volumes `data` and `boot` mounted, the path
`boot/k` lies only under `boot` and resolves to it. -/
theorem resolve_longest_match_witness :
    resolve [⟨["data"], 1⟩, ⟨["boot"], 2⟩] none ["boot", "k"] =
      Except.ok ⟨["boot"], 2⟩ :=
  (resolve_longest_match [⟨["data"], 1⟩, ⟨["boot"], 2⟩] none ["boot", "k"]).1
    ⟨["boot"], 2⟩ (by decide) (by decide) (by decide)

end SimpleInit
